import Mathlib

/-!
# Verification of the seisflows preprocessing core (`seisflows/preprocess/base.py`)

Shallow embedding of the `base` preprocessing class. Conventions:

* A trace (one receiver's time series, `s[:,i]` in the source) is a `List ℚ`;
  a trace matrix of shape `[nt, nr]` is represented receiver-major, as the
  list of its `nr` columns (`Matrix := List Trace`), so that the source's
  column access `s[:,i]` is `col s i`.
* The global parameter store `PAR` before `check` runs is `Params`
  (every key optional); after `check` fills the defaults it is `Config`.
* Python exceptions are the `Except PyErr` monad.  `ParameterError` from
  `seisflows.tools.config` is `PyErr.parameterError`; an unbound name
  (Python `NameError`) is `PyErr.nameError`.
* External collaborators that live outside this file's source
  (`seisflows.seistools.sbandpass`, the misfit/adjoint kernels
  `adjoint.wdiff` …, and `np.linalg.norm`) are abstract parameters: the
  dispatch and loop logic proved here is the code under verification, the
  kernels are opaque-to-us pure functions.  The import line of the source
  (`from seisflows.seistools import adjoint, misfit, sbandpass, smute, ...`)
  binds `sbandpass` and `smute` but *not* `shighpass`/`slowpass`; a call to
  either of the latter therefore raises `NameError` at run time, which the
  embedding records explicitly.
-/

set_option maxHeartbeats 1000000

namespace Seisflows

/-- Equality of `Except` values is decidable when both components' are;
used to evaluate the embedded functions on concrete inputs. -/
instance {ε α : Type} [DecidableEq ε] [DecidableEq α] :
    DecidableEq (Except ε α) := fun
  | .error e, .error e' => decidable_of_iff (e = e') (by simp)
  | .error _, .ok _ => isFalse (by simp)
  | .ok _, .error _ => isFalse (by simp)
  | .ok a, .ok a' => decidable_of_iff (a = a') (by simp)

/-- Python's `str.lower()` on the ASCII kernel names used here. -/
def pyLower (s : String) : String := ⟨s.data.map Char.toLower⟩

/-- One receiver's time series (a column `s[:,i]` of the source's array). -/
abbrev Trace := List ℚ

/-- A trace matrix of source shape `[nt, nr]`, stored as its `nr` columns. -/
abbrev Matrix := List Trace

/-- Column `i` of a trace matrix: the source's `s[:,i]`. -/
def col (s : Matrix) (i : ℕ) : Trace := s.getD i []

/-- The shared trace-metadata header (`h`): sample count `nt`, receiver
count `nr`, sample interval `dt`, and per-receiver offsets (reader-specific
geometry consumed by the mute stage). -/
structure Header where
  nt : ℕ
  nr : ℕ
  dt : ℚ
  offsets : List ℚ
deriving DecidableEq, Repr

/-- Python exceptions that the embedded code can raise. -/
inductive PyErr where
  /-- `ParameterError(PAR, key)` from `seisflows.tools.config`. -/
  | parameterError (key : String)
  /-- Python `NameError` for an unbound identifier. -/
  | nameError (nm : String)
deriving DecidableEq, Repr

/-- The parameter store `PAR` as seen by `base.check`: every key may be
absent (`'KEY' not in PAR`). -/
structure Params where
  MISFIT : Option String := none
  FORMAT : Option String := none
  CHANNELS : Option (List Char) := none
  NORMALIZE : Option Bool := none
  MUTE : Option Bool := none
  MUTESLOPE : Option ℚ := none
  MUTECONST : Option ℚ := none
  BANDPASS : Option Bool := none
  FREQLO : Option ℚ := none
  FREQHI : Option ℚ := none
  DT : Option ℚ := none
  NT : Option ℕ := none
  NREC : Option ℕ := none

/-- The parameter store after `base.check` has filled in the defaults. -/
structure Config where
  MISFIT : String
  FORMAT : String
  CHANNELS : List Char
  NORMALIZE : Bool
  MUTE : Bool
  MUTESLOPE : ℚ
  MUTECONST : ℚ
  BANDPASS : Bool
  FREQLO : ℚ
  FREQHI : ℚ
  DT : Option ℚ
  NT : Option ℕ
  NREC : Option ℕ

/-- `base.check` (source lines 19-52): defaults `MISFIT` to `'wav'`,
raises `ParameterError` when `FORMAT` or `CHANNELS` is missing (in that
order), and defaults the remaining mute/filter/normalize settings. -/
def check (p : Params) : Except PyErr Config :=
  let misfitName := p.MISFIT.getD "wav"
  match p.FORMAT with
  | none => .error (.parameterError "FORMAT")
  | some fmt =>
    match p.CHANNELS with
    | none => .error (.parameterError "CHANNELS")
    | some chans =>
      .ok { MISFIT := misfitName
            FORMAT := fmt
            CHANNELS := chans
            NORMALIZE := p.NORMALIZE.getD true
            MUTE := p.MUTE.getD false
            MUTESLOPE := p.MUTESLOPE.getD 0
            MUTECONST := p.MUTECONST.getD 0
            BANDPASS := p.BANDPASS.getD false
            FREQLO := p.FREQLO.getD 0
            FREQHI := p.FREQHI.getD 0
            DT := p.DT
            NT := p.NT
            NREC := p.NREC }

/-- Filter direction: `sbandpass(s, h, lo, hi)` is forward,
`sbandpass(s, h, lo, hi, 'reverse')` is reverse. -/
inductive Direction where
  | forward
  | reverse
deriving DecidableEq, Repr

/-- The external filter collaborator actually bound in the source's import
line: only `sbandpass` (the `shighpass`/`slowpass` names are unbound). -/
structure FilterFns where
  sbandpass : Matrix → Header → ℚ → ℚ → Direction → Matrix

/-- Type of the external `smute(s, h, vel, off, constant_spacing)`. -/
abbrev MuteFn := Matrix → Header → ℚ → ℚ → Bool → Matrix

/-- The filter block shared by `process_traces` (lines 89-100, forward) and
`generate_adjoint_traces` (lines 132-143, reverse).  Mirrors the source's
conditional chain exactly: Python truthiness of a float is `≠ 0`; the
second branch tests `PAR.FREQHI` but calls `shighpass` (unbound name →
`NameError`); the third branch repeats the test `PAR.FREQHI` and is
unreachable; the `else` raises `ParameterError(PAR, 'BANDPASS')`. -/
def filterBlock (F : FilterFns) (cfg : Config) (s : Matrix) (h : Header)
    (dir : Direction) : Except PyErr Matrix :=
  if cfg.BANDPASS then
    if cfg.FREQLO ≠ 0 ∧ cfg.FREQHI ≠ 0 then
      .ok (F.sbandpass s h cfg.FREQLO cfg.FREQHI dir)
    else if cfg.FREQHI ≠ 0 then
      .error (.nameError "shighpass")
    else if cfg.FREQHI ≠ 0 then
      .error (.nameError "slowpass")
    else
      .error (.parameterError "BANDPASS")
  else
    .ok s

/-- `base.process_traces` (lines 85-108): forward filter block, then the
mute stage when `PAR.MUTE` is set. -/
def process_traces (F : FilterFns) (mute : MuteFn) (cfg : Config)
    (s : Matrix) (h : Header) : Except PyErr Matrix :=
  match filterBlock F cfg s h .forward with
  | .error e => .error e
  | .ok s1 =>
      .ok (if cfg.MUTE then mute s1 h cfg.MUTESLOPE cfg.MUTECONST false else s1)

/-- The external adjoint kernel module `seisflows.seistools.adjoint`:
one generator per misfit name; `ediff` additionally takes the smoothing
constant `eps`. -/
structure AdjointFns where
  wdiff : Trace → Trace → ℕ → ℚ → Trace
  wtime : Trace → Trace → ℕ → ℚ → Trace
  wampl : Trace → Trace → ℕ → ℚ → Trace
  ediff : Trace → Trace → ℕ → ℚ → ℚ → Trace
  cdiff : Trace → Trace → ℕ → ℚ → Trace

/-- The external misfit kernel module `seisflows.seistools.misfit`. -/
structure MisfitFns where
  wdiff : Trace → Trace → ℕ → ℚ → ℚ
  wtime : Trace → Trace → ℕ → ℚ → ℚ
  wampl : Trace → Trace → ℕ → ℚ → ℚ
  ediff : Trace → Trace → ℕ → ℚ → ℚ → ℚ
  cdiff : Trace → Trace → ℕ → ℚ → ℚ

/-- `base.call_adjoint` (lines 157-179): case-insensitive dispatch on
`PAR.MISFIT`, falling back to the observed trace `wobs` for an
unrecognized name.  `eps=0.05` is `1/20`. -/
def call_adjoint (A : AdjointFns) (cfg : Config) (wsyn wobs : Trace)
    (nt : ℕ) (dt : ℚ) : Trace :=
  let opt := pyLower cfg.MISFIT
  if opt ∈ ["waveform", "wav", "wdiff"] then
    A.wdiff wsyn wobs nt dt
  else if opt ∈ ["traveltime", "tt", "wtime"] then
    A.wtime wsyn wobs nt dt
  else if opt ∈ ["amplitude", "ampl", "wampl"] then
    A.wampl wsyn wobs nt dt
  else if opt ∈ ["envelope", "env", "ediff"] then
    A.ediff wsyn wobs nt dt (1/20)
  else if opt ∈ ["cdiff"] then
    A.cdiff wsyn wobs nt dt
  else
    wobs

/-- `base.call_misfit` (lines 181-203): same dispatch, falling back to the
scalar `0.`; the final `float(e)` coercion is the identity here. -/
def call_misfit (M : MisfitFns) (cfg : Config) (wsyn wobs : Trace)
    (nt : ℕ) (dt : ℚ) : ℚ :=
  let opt := pyLower cfg.MISFIT
  if opt ∈ ["waveform", "wav", "wdiff"] then
    M.wdiff wsyn wobs nt dt
  else if opt ∈ ["traveltime", "tt", "wtime"] then
    M.wtime wsyn wobs nt dt
  else if opt ∈ ["amplitude", "ampl", "wampl"] then
    M.wampl wsyn wobs nt dt
  else if opt ∈ ["envelope", "env", "ediff"] then
    M.ediff wsyn wobs nt dt (1/20)
  else if opt ∈ ["cdiff"] then
    M.cdiff wsyn wobs nt dt
  else
    0

/-- The five alias groups recognized by the two dispatch wrappers. -/
def aliasGroups : List (List String) :=
  [["waveform", "wav", "wdiff"],
   ["traveltime", "tt", "wtime"],
   ["amplitude", "ampl", "wampl"],
   ["envelope", "env", "ediff"],
   ["cdiff"]]

/-- `base.write_residuals` (lines 111-121): appends
`call_misfit(s[:,i], d[:,i], h.nt, h.dt)` for `i in range(h.nr)`.  The
`np.savetxt('residuals', r)` side effect writes the first component; the
function reads but never assigns `s` or `d`, so the model returns them as
the final array states alongside the residual vector. -/
def write_residuals (M : MisfitFns) (cfg : Config) (s d : Matrix)
    (h : Header) : List ℚ × Matrix × Matrix :=
  ((List.range h.nr).map fun i =>
      call_misfit M cfg (col s i) (col d i) h.nt h.dt,
   s, d)

/-- The adjoint loop of `generate_adjoint_traces` (lines 128-129):
`s[:,i] = call_adjoint(s[:,i], d[:,i], h.nt, h.dt)` for `i in
range(h.nr)`. -/
def adjLoop (A : AdjointFns) (cfg : Config) (s d : Matrix) (h : Header) :
    Matrix :=
  (List.range h.nr).foldl
    (fun acc i => acc.set i (call_adjoint A cfg (col acc i) (col d i) h.nt h.dt))
    s

/-- The normalization loop of `generate_adjoint_traces` (lines 146-150):
`w = np.linalg.norm(d[:,ir], ord=2); if w > 0: s[:,ir] /= w`.  The
external `np.linalg.norm(·, ord=2)` is the abstract parameter `norm2`. -/
def normalizeLoop (norm2 : Trace → ℚ) (s d : Matrix) (h : Header) : Matrix :=
  (List.range h.nr).foldl
    (fun acc ir =>
      let w := norm2 (col d ir)
      if 0 < w then acc.set ir ((col acc ir).map fun x => x / w) else acc)
    s

/-- `base.generate_adjoint_traces` (lines 124-152): adjoint loop, reverse
filter block (same conditional chain as the forward one), then the
normalization loop when `PAR.NORMALIZE` is set.  The source never assigns
the observed array `d`, so the model returns the pair
`(returned s, final d)` to record the frame effect. -/
def generate_adjoint_traces (A : AdjointFns) (F : FilterFns)
    (norm2 : Trace → ℚ) (cfg : Config) (s d : Matrix) (h : Header) :
    Except PyErr (Matrix × Matrix) :=
  let s1 := adjLoop A cfg s d h
  match filterBlock F cfg s1 h .reverse with
  | .error e => .error e
  | .ok s2 =>
      .ok (if cfg.NORMALIZE then normalizeLoop norm2 s2 d h else s2, d)

/-- The dt-reconciliation of `base.check_headers` (lines 261-263): when
`'DT' in PAR` and the header's `dt` differs, overwrite it. -/
def reconcileHeader (cfg : Config) (h0 : Header) : Header :=
  match cfg.DT with
  | some v => if h0.dt ≠ v then { h0 with dt := v } else h0
  | none => h0

/-- The warning text printed at source line 267. -/
def ntWarning : String := "Warning: h.nt != PAR.NT"

/-- The warning text printed at source line 271. -/
def nrWarning : String := "Warning: h.nr != PAR.NREC"

/-- The warnings printed by `base.check_headers` (lines 265-271): one per
configured `NT`/`NREC` value that disagrees with the header; the header's
own values are kept. -/
def headerWarnings (cfg : Config) (h1 : Header) : List String :=
  (match cfg.NT with
   | some v => if h1.nt ≠ v then [ntWarning] else []
   | none => []) ++
  (match cfg.NREC with
   | some v => if h1.nr ≠ v then [nrWarning] else []
   | none => [])

/-- `base.check_headers` (lines 256-273): `h = headers.values()[0]` picks
the first per-channel header (on an empty mapping the subscript fails, so
no header is returned: `none`), then reconciles `dt` and emits the
`NT`/`NREC` warnings. -/
def check_headers (cfg : Config) (headers : List Header) :
    Option (Header × List String) :=
  match headers with
  | [] => none
  | h0 :: _ =>
      let h1 := reconcileHeader cfg h0
      some (h1, headerWarnings cfg h1)

/-- Modelled from the spec: `seisflows.seistools.smute` is part of this
repository but absent from the provided source tree.  Spec §4.3: per
receiver, a cutoff time `t_cut(offset) = slope * offset + intercept` from
a linear moveout model; samples earlier than `t_cut` along the time axis
are zeroed; `constantSpacing` selects uniformly spaced offsets instead of
the header's per-receiver geometry. -/
def smute (s : Matrix) (h : Header) (slope intercept : ℚ)
    (constantSpacing : Bool) : Matrix :=
  s.mapIdx fun i tr =>
    let off := if constantSpacing then (i : ℚ) else h.offsets.getD i 0
    let tcut := slope * off + intercept
    tr.mapIdx fun j x => if (j : ℚ) * h.dt < tcut then 0 else x

/-! ### Concrete instances used to witness the theorems below -/

/-- A filter collaborator that returns its input (any concrete instance
serves the witnesses; the theorems hold for every instance). -/
def trivialFilterFns : FilterFns :=
  ⟨fun s _ _ _ _ => s⟩

/-- A mute collaborator that returns its input. -/
def trivialMute : MuteFn := fun s _ _ _ _ => s

/-- Adjoint kernels that all return the observed trace. -/
def obsAdjointFns : AdjointFns :=
  ⟨fun _ o _ _ => o, fun _ o _ _ => o, fun _ o _ _ => o,
   fun _ o _ _ _ => o, fun _ o _ _ => o⟩

/-- Misfit kernels that all return the difference of the trace sums. -/
def sumDiffMisfitFns : MisfitFns :=
  ⟨fun s o _ _ => s.sum - o.sum, fun s o _ _ => s.sum - o.sum,
   fun s o _ _ => s.sum - o.sum, fun s o _ _ _ => s.sum - o.sum,
   fun s o _ _ => s.sum - o.sum⟩

/-- A fully-populated configuration with filtering and muting disabled. -/
def cfgBase : Config :=
  { MISFIT := "wav", FORMAT := "su", CHANNELS := ['x'],
    NORMALIZE := true, MUTE := false, MUTESLOPE := 0, MUTECONST := 0,
    BANDPASS := false, FREQLO := 0, FREQHI := 0,
    DT := none, NT := none, NREC := none }

/-- A one-receiver, one-sample header. -/
def hdr1 : Header := { nt := 1, nr := 1, dt := 1, offsets := [0] }

/-- A two-receiver, one-sample header. -/
def hdr2 : Header := { nt := 1, nr := 2, dt := 1, offsets := [0, 1] }

/-! ### Lemmas about the per-receiver update loops -/

lemma col_set (l : Matrix) (j : ℕ) (t : Trace) (i : ℕ) :
    col (l.set j t) i = if j = i ∧ j < l.length then t else col l i := by
  simp only [col, List.getD_eq_getElem?_getD, List.getElem?_set]
  rcases Decidable.em (j = i) with rfl | hne
  · rcases Decidable.em (j < l.length) with hlt | hge
    · simp [hlt]
    · simp [hge, List.getElem?_eq_none (Nat.le_of_not_lt hge)]
  · simp [hne]

lemma length_range_foldl (g : ℕ → Trace → Trace) (P : ℕ → Prop)
    [DecidablePred P] (s : Matrix) (n : ℕ) :
    ((List.range n).foldl
      (fun acc j => if P j then acc.set j (g j (col acc j)) else acc)
      s).length = s.length := by
  induction n with
  | zero => rfl
  | succ n ih =>
    rw [List.range_succ, List.foldl_append, List.foldl_cons, List.foldl_nil]
    split
    · rw [List.length_set]; exact ih
    · exact ih

/-- A fold over `range n` whose step `j` rewrites only column `j` leaves
column `i` equal to the rewrite of the *original* column `i` (when the
loop reaches `i` and the column exists) and untouched otherwise. -/
lemma col_range_foldl (g : ℕ → Trace → Trace) (P : ℕ → Prop)
    [DecidablePred P] (s : Matrix) (n i : ℕ) :
    col ((List.range n).foldl
      (fun acc j => if P j then acc.set j (g j (col acc j)) else acc) s) i =
      if i < n ∧ P i ∧ i < s.length then g i (col s i) else col s i := by
  induction n with
  | zero => simp
  | succ n ih =>
    rw [List.range_succ, List.foldl_append, List.foldl_cons, List.foldl_nil]
    have hlen := length_range_foldl g P s n
    by_cases hPn : P n
    · rw [if_pos hPn, col_set]
      by_cases hni : n = i
      · subst hni
        by_cases hlt : n < s.length
        · rw [if_pos ⟨rfl, by rw [hlen]; exact hlt⟩]
          have hmn : col ((List.range n).foldl
              (fun acc j => if P j then acc.set j (g j (col acc j)) else acc) s) n
              = col s n := by
            rw [ih, if_neg]
            rintro ⟨h1, -⟩
            exact lt_irrefl n h1
          rw [hmn, if_pos ⟨Nat.lt_succ_self n, hPn, hlt⟩]
        · rw [if_neg (by rw [hlen]; rintro ⟨-, h2⟩; exact hlt h2), ih,
            if_neg (by rintro ⟨-, -, h3⟩; exact hlt h3),
            if_neg (by rintro ⟨-, -, h3⟩; exact hlt h3)]
      · rw [if_neg (by rintro ⟨h1, -⟩; exact hni h1), ih]
        have hiff : i < n ↔ i < n + 1 :=
          ⟨fun h => Nat.lt_succ_of_lt h,
           fun h => lt_of_le_of_ne (Nat.lt_succ_iff.mp h) fun he => hni he.symm⟩
        simp only [hiff]
    · rw [if_neg hPn, ih]
      by_cases hni : i = n
      · subst hni
        rw [if_neg (by rintro ⟨-, h2, -⟩; exact hPn h2),
          if_neg (by rintro ⟨-, h2, -⟩; exact hPn h2)]
      · have hiff : i < n ↔ i < n + 1 :=
          ⟨fun h => Nat.lt_succ_of_lt h,
           fun h => lt_of_le_of_ne (Nat.lt_succ_iff.mp h) hni⟩
        simp only [hiff]

/-- The guardless special case of `col_range_foldl`. -/
lemma col_range_foldl_all (g : ℕ → Trace → Trace) (s : Matrix) (n i : ℕ) :
    col ((List.range n).foldl (fun acc j => acc.set j (g j (col acc j))) s) i =
      if i < n ∧ i < s.length then g i (col s i) else col s i := by
  have h := col_range_foldl g (fun _ => True) s n i
  simpa using h

/-- Column `i` of the adjoint loop is the adjoint kernel applied to the
original columns `s[:,i]`, `d[:,i]`. -/
lemma col_adjLoop (A : AdjointFns) (cfg : Config) (s d : Matrix)
    (h : Header) (i : ℕ) (h1 : i < h.nr) (h2 : i < s.length) :
    col (adjLoop A cfg s d h) i
      = call_adjoint A cfg (col s i) (col d i) h.nt h.dt := by
  have h3 := col_range_foldl_all
    (fun j tr => call_adjoint A cfg tr (col d j) h.nt h.dt) s h.nr i
  rw [if_pos ⟨h1, h2⟩] at h3
  exact h3

/-- Column `i` of the normalization loop: untouched when the guard
`w > 0` fails, divided elementwise by `w` when it holds. -/
lemma col_normalizeLoop (norm2 : Trace → ℚ) (s d : Matrix) (h : Header)
    (i : ℕ) :
    col (normalizeLoop norm2 s d h) i =
      if i < h.nr ∧ 0 < norm2 (col d i) ∧ i < s.length then
        (col s i).map fun x => x / norm2 (col d i)
      else col s i := by
  have key : normalizeLoop norm2 s d h = (List.range h.nr).foldl
      (fun acc j => if (fun j => 0 < norm2 (col d j)) j then
        acc.set j ((fun j tr => tr.map fun x => x / norm2 (col d j)) j (col acc j))
      else acc) s := rfl
  rw [key, col_range_foldl]

/-! ### Dispatch lemmas: each alias group selects one fixed kernel -/

lemma dispatch_waveform (M : MisfitFns) (A : AdjointFns) (cfg : Config)
    (hm : pyLower cfg.MISFIT ∈ ["waveform", "wav", "wdiff"])
    (ws wo : Trace) (nt : ℕ) (dt : ℚ) :
    call_misfit M cfg ws wo nt dt = M.wdiff ws wo nt dt ∧
    call_adjoint A cfg ws wo nt dt = A.wdiff ws wo nt dt := by
  constructor <;> · simp only [call_misfit, call_adjoint]; rw [if_pos hm]

lemma dispatch_traveltime (M : MisfitFns) (A : AdjointFns) (cfg : Config)
    (hm : pyLower cfg.MISFIT ∈ ["traveltime", "tt", "wtime"])
    (ws wo : Trace) (nt : ℕ) (dt : ℚ) :
    call_misfit M cfg ws wo nt dt = M.wtime ws wo nt dt ∧
    call_adjoint A cfg ws wo nt dt = A.wtime ws wo nt dt := by
  simp only [List.mem_cons, List.mem_singleton, List.not_mem_nil, or_false] at hm
  constructor <;>
  · simp only [call_misfit, call_adjoint]
    rcases hm with hm | hm | hm <;>
      rw [hm, if_neg (by decide), if_pos (by decide)]

lemma dispatch_amplitude (M : MisfitFns) (A : AdjointFns) (cfg : Config)
    (hm : pyLower cfg.MISFIT ∈ ["amplitude", "ampl", "wampl"])
    (ws wo : Trace) (nt : ℕ) (dt : ℚ) :
    call_misfit M cfg ws wo nt dt = M.wampl ws wo nt dt ∧
    call_adjoint A cfg ws wo nt dt = A.wampl ws wo nt dt := by
  simp only [List.mem_cons, List.mem_singleton, List.not_mem_nil, or_false] at hm
  constructor <;>
  · simp only [call_misfit, call_adjoint]
    rcases hm with hm | hm | hm <;>
      rw [hm, if_neg (by decide), if_neg (by decide), if_pos (by decide)]

lemma dispatch_envelope (M : MisfitFns) (A : AdjointFns) (cfg : Config)
    (hm : pyLower cfg.MISFIT ∈ ["envelope", "env", "ediff"])
    (ws wo : Trace) (nt : ℕ) (dt : ℚ) :
    call_misfit M cfg ws wo nt dt = M.ediff ws wo nt dt (1/20) ∧
    call_adjoint A cfg ws wo nt dt = A.ediff ws wo nt dt (1/20) := by
  simp only [List.mem_cons, List.mem_singleton, List.not_mem_nil, or_false] at hm
  constructor <;>
  · simp only [call_misfit, call_adjoint]
    rcases hm with hm | hm | hm <;>
      rw [hm, if_neg (by decide), if_neg (by decide), if_neg (by decide),
        if_pos (by decide)]

lemma dispatch_cdiff (M : MisfitFns) (A : AdjointFns) (cfg : Config)
    (hm : pyLower cfg.MISFIT ∈ ["cdiff"])
    (ws wo : Trace) (nt : ℕ) (dt : ℚ) :
    call_misfit M cfg ws wo nt dt = M.cdiff ws wo nt dt ∧
    call_adjoint A cfg ws wo nt dt = A.cdiff ws wo nt dt := by
  simp only [List.mem_singleton, List.mem_cons, List.not_mem_nil, or_false] at hm
  constructor <;>
  · simp only [call_misfit, call_adjoint]
    rw [hm, if_neg (by decide), if_neg (by decide), if_neg (by decide),
      if_neg (by decide), if_pos (by decide)]

/-- For a name outside every alias group both wrappers take the final
`else` branch. -/
lemma dispatch_fallback (M : MisfitFns) (A : AdjointFns) (cfg : Config)
    (hn : ∀ g ∈ aliasGroups, pyLower cfg.MISFIT ∉ g)
    (ws wo : Trace) (nt : ℕ) (dt : ℚ) :
    call_misfit M cfg ws wo nt dt = 0 ∧
    call_adjoint A cfg ws wo nt dt = wo := by
  have h1 := hn ["waveform", "wav", "wdiff"] (by simp [aliasGroups])
  have h2 := hn ["traveltime", "tt", "wtime"] (by simp [aliasGroups])
  have h3 := hn ["amplitude", "ampl", "wampl"] (by simp [aliasGroups])
  have h4 := hn ["envelope", "env", "ediff"] (by simp [aliasGroups])
  have h5 := hn ["cdiff"] (by simp [aliasGroups])
  constructor <;>
  · simp only [call_misfit, call_adjoint]
    rw [if_neg h1, if_neg h2, if_neg h3, if_neg h4, if_neg h5]

/-! ### Claim theorems -/

/-- C1: evaluation of the embedded filter dispatch at the inputs on which
code and spec diverge.  With filtering enabled and only the low corner
non-zero, `process_traces` raises `ParameterError(PAR, 'BANDPASS')`
instead of applying a highpass; with only the high corner non-zero it
evaluates the unbound name `shighpass` (a `NameError`) instead of
applying a lowpass; `generate_adjoint_traces` shares the identical
conditional chain (its third branch repeats the test `PAR.FREQHI` and is
unreachable). -/
theorem filter_mode_bug_eval :
    process_traces trivialFilterFns trivialMute
      { cfgBase with BANDPASS := true, FREQLO := 2, FREQHI := 0 } [[1]] hdr1
      = .error (.parameterError "BANDPASS") ∧
    process_traces trivialFilterFns trivialMute
      { cfgBase with BANDPASS := true, FREQLO := 0, FREQHI := 3 } [[1]] hdr1
      = .error (.nameError "shighpass") ∧
    generate_adjoint_traces obsAdjointFns trivialFilterFns (fun _ => 1)
      { cfgBase with BANDPASS := true, FREQLO := 2, FREQHI := 0 }
      [[1]] [[2]] hdr1
      = .error (.parameterError "BANDPASS") :=
  ⟨by decide, by decide, by decide⟩

/-- C2: for every pair of same-length traces and a configured misfit name
outside every recognized alias group, the misfit wrapper returns exactly
`0` and the adjoint wrapper returns the observed trace unchanged. -/
theorem unknown_kernel_fallback (M : MisfitFns) (A : AdjointFns)
    (cfg : Config) (hn : ∀ g ∈ aliasGroups, pyLower cfg.MISFIT ∉ g)
    (wsyn wobs : Trace) (hlen : wsyn.length = wobs.length)
    (nt : ℕ) (dt : ℚ) :
    call_misfit M cfg wsyn wobs nt dt = 0 ∧
    call_adjoint A cfg wsyn wobs nt dt = wobs :=
  dispatch_fallback M A cfg hn wsyn wobs nt dt

/-- C2 witness: the fallback at `MISFIT = "bogus"`. -/
theorem unknown_kernel_fallback_witness :
    call_misfit sumDiffMisfitFns { cfgBase with MISFIT := "bogus" }
      [1, 2] [3, 4] 2 1 = 0 ∧
    call_adjoint obsAdjointFns { cfgBase with MISFIT := "bogus" }
      [1, 2] [3, 4] 2 1 = [3, 4] :=
  unknown_kernel_fallback sumDiffMisfitFns obsAdjointFns
    { cfgBase with MISFIT := "bogus" } (by decide) [1, 2] [3, 4] rfl 2 1

/-- C7: within one alias group, any two names select the same kernel in
both wrappers (case-insensitively), so the results coincide. -/
theorem alias_equivalence (M : MisfitFns) (A : AdjointFns) (cfg : Config)
    (g : List String) (hg : g ∈ aliasGroups) (n1 n2 : String)
    (h1 : pyLower n1 ∈ g) (h2 : pyLower n2 ∈ g)
    (wsyn wobs : Trace) (hlen : wsyn.length = wobs.length)
    (nt : ℕ) (dt : ℚ) :
    call_misfit M { cfg with MISFIT := n1 } wsyn wobs nt dt
      = call_misfit M { cfg with MISFIT := n2 } wsyn wobs nt dt ∧
    call_adjoint A { cfg with MISFIT := n1 } wsyn wobs nt dt
      = call_adjoint A { cfg with MISFIT := n2 } wsyn wobs nt dt := by
  simp only [aliasGroups, List.mem_cons, List.mem_singleton,
    List.not_mem_nil, or_false] at hg
  rcases hg with rfl | rfl | rfl | rfl | rfl
  · exact ⟨(dispatch_waveform M A _ h1 wsyn wobs nt dt).1.trans
        (dispatch_waveform M A _ h2 wsyn wobs nt dt).1.symm,
      (dispatch_waveform M A _ h1 wsyn wobs nt dt).2.trans
        (dispatch_waveform M A _ h2 wsyn wobs nt dt).2.symm⟩
  · exact ⟨(dispatch_traveltime M A _ h1 wsyn wobs nt dt).1.trans
        (dispatch_traveltime M A _ h2 wsyn wobs nt dt).1.symm,
      (dispatch_traveltime M A _ h1 wsyn wobs nt dt).2.trans
        (dispatch_traveltime M A _ h2 wsyn wobs nt dt).2.symm⟩
  · exact ⟨(dispatch_amplitude M A _ h1 wsyn wobs nt dt).1.trans
        (dispatch_amplitude M A _ h2 wsyn wobs nt dt).1.symm,
      (dispatch_amplitude M A _ h1 wsyn wobs nt dt).2.trans
        (dispatch_amplitude M A _ h2 wsyn wobs nt dt).2.symm⟩
  · exact ⟨(dispatch_envelope M A _ h1 wsyn wobs nt dt).1.trans
        (dispatch_envelope M A _ h2 wsyn wobs nt dt).1.symm,
      (dispatch_envelope M A _ h1 wsyn wobs nt dt).2.trans
        (dispatch_envelope M A _ h2 wsyn wobs nt dt).2.symm⟩
  · exact ⟨(dispatch_cdiff M A _ h1 wsyn wobs nt dt).1.trans
        (dispatch_cdiff M A _ h2 wsyn wobs nt dt).1.symm,
      (dispatch_cdiff M A _ h1 wsyn wobs nt dt).2.trans
        (dispatch_cdiff M A _ h2 wsyn wobs nt dt).2.symm⟩

/-- C7 witness: `"WAV"` and `"waveform"` agree in both wrappers. -/
theorem alias_equivalence_witness :
    call_misfit sumDiffMisfitFns { cfgBase with MISFIT := "WAV" } [1] [2] 1 1
      = call_misfit sumDiffMisfitFns { cfgBase with MISFIT := "waveform" }
          [1] [2] 1 1 ∧
    call_adjoint obsAdjointFns { cfgBase with MISFIT := "WAV" } [1] [2] 1 1
      = call_adjoint obsAdjointFns { cfgBase with MISFIT := "waveform" }
          [1] [2] 1 1 :=
  alias_equivalence sumDiffMisfitFns obsAdjointFns cfgBase
    ["waveform", "wav", "wdiff"] (by decide) "WAV" "waveform"
    (by decide) (by decide) [1] [2] rfl 1 1

/-- C6: a missing `FORMAT` key raises `ParameterError` from `check`; with
`FORMAT` present, a missing `CHANNELS` key raises `ParameterError`; and
invoking the filter with filtering enabled but both corner frequencies
zero raises `ParameterError` at call time. -/
theorem config_errors :
    (∀ p : Params, p.FORMAT = none →
      check p = .error (.parameterError "FORMAT")) ∧
    (∀ p : Params, p.FORMAT ≠ none → p.CHANNELS = none →
      check p = .error (.parameterError "CHANNELS")) ∧
    (∀ (F : FilterFns) (mute : MuteFn) (cfg : Config) (s : Matrix)
      (h : Header), cfg.BANDPASS = true → cfg.FREQLO = 0 → cfg.FREQHI = 0 →
      process_traces F mute cfg s h = .error (.parameterError "BANDPASS")) := by
  refine ⟨?_, ?_, ?_⟩
  · intro p hf
    simp [check, hf]
  · intro p hf hc
    rcases hp : p.FORMAT with _ | fmt
    · exact absurd hp hf
    · simp [check, hp, hc]
  · intro F mute cfg s h hb hlo hhi
    simp [process_traces, filterBlock, hb, hlo, hhi]

/-- C6 witness: concrete instances of all three error paths. -/
theorem config_errors_witness :
    check {} = .error (.parameterError "FORMAT") ∧
    check { FORMAT := some "su" } = .error (.parameterError "CHANNELS") ∧
    process_traces trivialFilterFns trivialMute
      { cfgBase with BANDPASS := true } [[1]] hdr1
      = .error (.parameterError "BANDPASS") :=
  ⟨config_errors.1 {} rfl,
   config_errors.2.1 { FORMAT := some "su" } (by simp) rfl,
   config_errors.2.2 trivialFilterFns trivialMute
     { cfgBase with BANDPASS := true } [[1]] hdr1 rfl rfl rfl⟩

/-- C8 (amended): with filtering *and muting* disabled, `process_traces`
returns its input trace matrix unchanged. -/
theorem bypass_identity (F : FilterFns) (mute : MuteFn) (cfg : Config)
    (s : Matrix) (h : Header) (hb : cfg.BANDPASS = false)
    (hm : cfg.MUTE = false) :
    process_traces F mute cfg s h = .ok s := by
  simp [process_traces, filterBlock, hb, hm]

/-- C8 witness: the amended identity at a concrete input. -/
theorem bypass_identity_witness :
    process_traces trivialFilterFns smute cfgBase [[1, 2], [3, 4]] hdr1
      = .ok [[1, 2], [3, 4]] :=
  bypass_identity trivialFilterFns smute cfgBase [[1, 2], [3, 4]] hdr1 rfl rfl

/-- C8 counterexample: with filtering disabled but muting *enabled*,
`process_traces` (with the spec-modelled `smute`) zeroes the pre-cutoff
sample, so its output is not the input — the claim's unconditional
identity fails. -/
theorem bypass_identity_cex :
    process_traces trivialFilterFns smute
      { cfgBase with MUTE := true, MUTECONST := 1 } [[5]] hdr1
      ≠ .ok [[5]] := by
  simp [process_traces, filterBlock, smute, cfgBase, hdr1, col]

/-- C9: on an empty channel set (no per-channel headers) the header
reconciler fails — the source subscripts an empty sequence at
`headers.values()[0]` — rather than returning a header. -/
theorem empty_headers (cfg : Config) : check_headers cfg [] = none := rfl

/-- C3: the normalization step skips a receiver whose observed norm is
zero (the trace is left exactly as it was before the step) and divides by
the norm when it is non-zero.  `norm2` stands for the external
`np.linalg.norm(·, ord=2)`, which is nonnegative. -/
theorem normalization_guard (norm2 : Trace → ℚ) (hpos : ∀ t, 0 ≤ norm2 t)
    (s d : Matrix) (h : Header) (i : ℕ) (hi : i < h.nr)
    (hlen : i < s.length) :
    (norm2 (col d i) = 0 → col (normalizeLoop norm2 s d h) i = col s i) ∧
    (norm2 (col d i) ≠ 0 →
      col (normalizeLoop norm2 s d h) i
        = (col s i).map fun x => x / norm2 (col d i)) := by
  constructor
  · intro h0
    rw [col_normalizeLoop, if_neg]
    rintro ⟨-, hlt, -⟩
    rw [h0] at hlt
    exact lt_irrefl 0 hlt
  · intro hne
    have hlt : 0 < norm2 (col d i) := lt_of_le_of_ne (hpos _) (Ne.symm hne)
    rw [col_normalizeLoop, if_pos ⟨hi, hlt, hlen⟩]

/-- C3 witness: zero norm leaves the column untouched; norm `1` divides
it elementwise by `1`. -/
theorem normalization_guard_witness :
    col (normalizeLoop (fun _ => 0) [[2]] [[3]] hdr1) 0 = col [[2]] 0 ∧
    col (normalizeLoop (fun _ => 1) [[2]] [[3]] hdr1) 0
      = (col [[2]] 0).map fun x => x / 1 :=
  ⟨(normalization_guard (fun _ => 0) (fun _ => le_refl 0) [[2]] [[3]] hdr1 0
      (by decide) (by decide)).1 rfl,
   (normalization_guard (fun _ => 1) (fun _ => zero_le_one) [[2]] [[3]] hdr1 0
      (by decide) (by decide)).2 one_ne_zero⟩

/-- C4: the residual vector has exactly `h.nr` entries, and entry `i`
depends only on column `i` of the synthetic and observed matrices. -/
theorem residual_alignment (M : MisfitFns) (cfg : Config) (s d : Matrix)
    (h : Header) :
    (write_residuals M cfg s d h).1.length = h.nr ∧
    ∀ i, i < h.nr → ∀ s2 d2 : Matrix,
      col s2 i = col s i → col d2 i = col d i →
      (write_residuals M cfg s2 d2 h).1.getD i 0
        = (write_residuals M cfg s d h).1.getD i 0 := by
  constructor
  · simp [write_residuals]
  · intro i hi s2 d2 hs hd
    have hgi : ∀ s' d' : Matrix,
        (write_residuals M cfg s' d' h).1.getD i 0
          = call_misfit M cfg (col s' i) (col d' i) h.nt h.dt := by
      intro s' d'
      simp only [write_residuals]
      rw [List.getD_eq_getElem?_getD, List.getElem?_map,
        List.getElem?_range hi]
      rfl
    rw [hgi, hgi, hs, hd]

/-- C4 witness: two receivers give two residuals, and entry `0` is
unchanged when only receiver `1`'s columns change. -/
theorem residual_alignment_witness :
    (write_residuals sumDiffMisfitFns cfgBase [[1], [3]] [[2], [2]]
      hdr2).1.length = 2 ∧
    (write_residuals sumDiffMisfitFns cfgBase [[1], [9]] [[2], [7]]
        hdr2).1.getD 0 0
      = (write_residuals sumDiffMisfitFns cfgBase [[1], [3]] [[2], [2]]
        hdr2).1.getD 0 0 :=
  ⟨(residual_alignment sumDiffMisfitFns cfgBase [[1], [3]] [[2], [2]] hdr2).1,
   (residual_alignment sumDiffMisfitFns cfgBase [[1], [3]] [[2], [2]] hdr2).2
     0 (by decide) [[1], [9]] [[2], [7]] rfl rfl⟩

lemma reconcileHeader_dt (cfg : Config) (h0 : Header) (v : ℚ)
    (hv : cfg.DT = some v) : (reconcileHeader cfg h0).dt = v := by
  simp only [reconcileHeader, hv]
  by_cases hne : h0.dt ≠ v
  · rw [if_pos hne]
  · rw [if_neg hne]
    exact not_not.mp hne

lemma reconcileHeader_nt (cfg : Config) (h0 : Header) :
    (reconcileHeader cfg h0).nt = h0.nt := by
  unfold reconcileHeader
  rcases cfg.DT with _ | v
  · rfl
  · dsimp only
    split <;> rfl

lemma reconcileHeader_nr (cfg : Config) (h0 : Header) :
    (reconcileHeader cfg h0).nr = h0.nr := by
  unfold reconcileHeader
  rcases cfg.DT with _ | v
  · rfl
  · dsimp only
    split <;> rfl

lemma ntWarning_mem (cfg : Config) (h1 : Header) (v : ℕ)
    (hv : cfg.NT = some v) (hne : h1.nt ≠ v) :
    ntWarning ∈ headerWarnings cfg h1 := by
  simp [headerWarnings, hv, hne]

lemma nrWarning_mem (cfg : Config) (h1 : Header) (v : ℕ)
    (hv : cfg.NREC = some v) (hne : h1.nr ≠ v) :
    nrWarning ∈ headerWarnings cfg h1 := by
  simp [headerWarnings, hv, hne]

lemma headerWarnings_subset (cfg : Config) (h1 : Header) :
    ∀ w ∈ headerWarnings cfg h1, w = ntWarning ∨ w = nrWarning := by
  intro w hw
  unfold headerWarnings at hw
  rcases List.mem_append.mp hw with hmem | hmem
  · left
    rcases hNT : cfg.NT with _ | v <;> rw [hNT] at hmem
    · simp at hmem
    · dsimp only at hmem
      split at hmem
      · simpa using hmem
      · simp at hmem
  · right
    rcases hNR : cfg.NREC with _ | v <;> rw [hNR] at hmem
    · simp at hmem
    · dsimp only at hmem
      split at hmem
      · simpa using hmem
      · simp at hmem

/-- C5: on a non-empty channel set, `check_headers` returns one canonical
header (the first channel's, with `dt` forced to a configured `DT` when
one is present) together with non-fatal warnings; a configured `NT` or
`NREC` that disagrees only produces a warning while the header keeps its
own `nt`/`nr`, and no other warning text exists. -/
theorem header_reconciler (cfg : Config) (h0 : Header)
    (rest : List Header) :
    check_headers cfg (h0 :: rest)
      = some (reconcileHeader cfg h0,
          headerWarnings cfg (reconcileHeader cfg h0)) ∧
    (∀ v, cfg.DT = some v → (reconcileHeader cfg h0).dt = v) ∧
    (reconcileHeader cfg h0).nt = h0.nt ∧
    (reconcileHeader cfg h0).nr = h0.nr ∧
    (∀ v, cfg.NT = some v → h0.nt ≠ v →
      ntWarning ∈ headerWarnings cfg (reconcileHeader cfg h0)) ∧
    (∀ v, cfg.NREC = some v → h0.nr ≠ v →
      nrWarning ∈ headerWarnings cfg (reconcileHeader cfg h0)) ∧
    (∀ w ∈ headerWarnings cfg (reconcileHeader cfg h0),
      w = ntWarning ∨ w = nrWarning) := by
  refine ⟨rfl, fun v hv => reconcileHeader_dt cfg h0 v hv,
    reconcileHeader_nt cfg h0, reconcileHeader_nr cfg h0,
    fun v hv hnev => ?_, fun v hv hnev => ?_,
    headerWarnings_subset cfg (reconcileHeader cfg h0)⟩
  · exact ntWarning_mem cfg _ v hv (by rw [reconcileHeader_nt]; exact hnev)
  · exact nrWarning_mem cfg _ v hv (by rw [reconcileHeader_nr]; exact hnev)

/-- C5 witness: a configured `DT = 2` is silently forced into the header,
while disagreeing `NT`/`NREC` only warn and the header keeps its values. -/
theorem header_reconciler_witness :
    check_headers { cfgBase with DT := some 2, NT := some 5, NREC := some 7 }
        [hdr1]
      = some (reconcileHeader
            { cfgBase with DT := some 2, NT := some 5, NREC := some 7 } hdr1,
          headerWarnings
            { cfgBase with DT := some 2, NT := some 5, NREC := some 7 }
            (reconcileHeader
              { cfgBase with DT := some 2, NT := some 5, NREC := some 7 }
              hdr1)) ∧
    (reconcileHeader
        { cfgBase with DT := some 2, NT := some 5, NREC := some 7 } hdr1).dt
      = 2 ∧
    (reconcileHeader
        { cfgBase with DT := some 2, NT := some 5, NREC := some 7 } hdr1).nt
      = hdr1.nt ∧
    ntWarning ∈ headerWarnings
      { cfgBase with DT := some 2, NT := some 5, NREC := some 7 }
      (reconcileHeader
        { cfgBase with DT := some 2, NT := some 5, NREC := some 7 } hdr1) ∧
    nrWarning ∈ headerWarnings
      { cfgBase with DT := some 2, NT := some 5, NREC := some 7 }
      (reconcileHeader
        { cfgBase with DT := some 2, NT := some 5, NREC := some 7 } hdr1) :=
  ⟨(header_reconciler _ hdr1 []).1,
   (header_reconciler _ hdr1 []).2.1 2 rfl,
   (header_reconciler _ hdr1 []).2.2.1,
   (header_reconciler _ hdr1 []).2.2.2.2.1 5 rfl (by decide),
   (header_reconciler _ hdr1 []).2.2.2.2.2.1 7 rfl (by decide)⟩

/-- C10: `write_residuals` returns both trace matrices unchanged (the
source only reads them); `generate_adjoint_traces` returns the observed
matrix unchanged (the source never assigns `d`), while its adjoint loop
overwrites the synthetic matrix column by column with
`call_adjoint(s[:,i], d[:,i], nt, dt)`. -/
theorem frame_effects (M : MisfitFns) (A : AdjointFns) (F : FilterFns)
    (norm2 : Trace → ℚ) (cfg : Config) (s d : Matrix) (h : Header) :
    (write_residuals M cfg s d h).2 = (s, d) ∧
    (∀ out, generate_adjoint_traces A F norm2 cfg s d h = .ok out →
      out.2 = d) ∧
    (∀ i, i < h.nr → i < s.length →
      col (adjLoop A cfg s d h) i
        = call_adjoint A cfg (col s i) (col d i) h.nt h.dt) := by
  refine ⟨rfl, ?_, fun i hi hl => col_adjLoop A cfg s d h i hi hl⟩
  intro out hout
  simp only [generate_adjoint_traces] at hout
  rcases hfb : filterBlock F cfg (adjLoop A cfg s d h) h .reverse
    with e | s2
  · rw [hfb] at hout
    exact absurd hout (by simp)
  · rw [hfb] at hout
    injection hout with h2
    rw [← h2]

/-- C10 witness: concrete instances of the three frame facts. -/
theorem frame_effects_witness :
    (write_residuals sumDiffMisfitFns cfgBase [[1]] [[2]] hdr1).2
      = ([[1]], [[2]]) ∧
    (([[2]], [[2]]) : Matrix × Matrix).2 = [[2]] ∧
    col (adjLoop obsAdjointFns cfgBase [[1]] [[2]] hdr1) 0
      = call_adjoint obsAdjointFns cfgBase (col [[1]] 0) (col [[2]] 0)
          hdr1.nt hdr1.dt :=
  ⟨(frame_effects sumDiffMisfitFns obsAdjointFns trivialFilterFns
      (fun _ => 1) cfgBase [[1]] [[2]] hdr1).1,
   (frame_effects sumDiffMisfitFns obsAdjointFns trivialFilterFns
      (fun _ => 1) { cfgBase with NORMALIZE := false } [[1]] [[2]]
      hdr1).2.1 ([[2]], [[2]]) (by decide),
   (frame_effects sumDiffMisfitFns obsAdjointFns trivialFilterFns
      (fun _ => 1) cfgBase [[1]] [[2]] hdr1).2.2 0 (by decide) (by decide)⟩

end Seisflows
